import Mathlib

/-!
Shallow embedding of the Tryton `import_csv` module (`import_csv.py`) and
proofs about its column coercion, save-time validation, dedup decision
policy, grouped (party/sale) row assembly and run finalization.

Python strings are modeled as Lean `String` (a wrapper around `List Char`
in this toolchain); Python `None`-able values as `Option`; raised Python
exceptions as `Except ImpErr`.  Helper functions re-implement the exact
Python primitives used by the source (`str.split(',')`, `str.replace`,
`int(...)`, list indexing with negative indices, `decimal.Decimal`).
-/

deriving instance DecidableEq for Except

namespace ImportCSV

/-- Errors that the import code can raise.  `userError k` models
`raise_user_error(k)` (a Tryton `UserError` that propagates to the caller
unless caught); the other constructors model the built-in Python
exceptions that can escape the import loops. -/
inductive ImpErr where
  | userError (key : String)
  | valueError
  | indexError
  | attributeError
  | nameError
deriving DecidableEq

/-! ### Python string primitives -/

/-- `listStartsWith pat s` : does `s` start with `pat`? -/
def listStartsWith : List Char → List Char → Bool
  | [], _ => true
  | _ :: _, [] => false
  | p :: ps, c :: cs => p == c && listStartsWith ps cs

/-- Core of Python `str.replace(pat, new)` for a non-empty `pat`: scan the
string left to right; at an occurrence of `pat` emit `new` and continue
after the occurrence.  The `Nat` argument is the number of characters of a
matched occurrence still to be skipped, which keeps the recursion
structural. -/
def pyReplaceAux (pat new : List Char) : List Char → Nat → List Char
  | [], _ => []
  | c :: cs, 0 =>
    if pat ≠ [] ∧ listStartsWith pat (c :: cs) then
      new ++ pyReplaceAux pat new cs (pat.length - 1)
    else
      c :: pyReplaceAux pat new cs 0
  | _ :: cs, k + 1 => pyReplaceAux pat new cs k

/-- Python `s.replace(pat, new)` (the source only ever calls it with a
non-empty pattern). -/
def pyStrReplace (s pat new : String) : String :=
  ⟨pyReplaceAux pat.data new.data s.data 0⟩

/-- Core of Python `str.split(sep)` for a single-character separator. -/
def pySplitChars (sep : Char) : List Char → List (List Char)
  | [] => [[]]
  | c :: cs =>
    let r := pySplitChars sep cs
    if c = sep then [] :: r
    else
      match r with
      | [] => [[c]]
      | h :: t => (c :: h) :: t

/-- Python `s.split(sep)` for a single-character separator
(`"".split(',') == ['']`). -/
def pySplit (s : String) (sep : Char) : List String :=
  (pySplitChars sep s.data).map (fun l => ⟨l⟩)

/-- Value of a decimal digit character. -/
def charVal (c : Char) : Nat := c.toNat - 48

/-- The character of a decimal digit. -/
def digitChar (d : Nat) : Char := Char.ofNat (48 + d)

/-- Digits of `n` in base 10, most significant first.  The first argument
is fuel (`n` itself suffices) keeping the recursion structural. -/
def natDigitsAux : Nat → Nat → List Nat
  | 0, n => [n % 10]
  | fuel + 1, n => if n < 10 then [n] else natDigitsAux fuel (n / 10) ++ [n % 10]

/-- Digits of `n` in base 10, most significant first. -/
def natDigits (n : Nat) : List Nat := natDigitsAux n n

/-- Value of a most-significant-first digit list. -/
def digitsToNat (l : List Nat) : Nat := l.foldl (fun a d => a * 10 + d) 0

/-- Model of Python `int(s)`: an optional sign followed by at least one
decimal digit (surrounding whitespace and digit-group underscores, which
Python also accepts, are not modeled — the source only feeds it raw
column-position tokens). -/
def parseNatDigits (l : List Char) : Option Nat :=
  if l ≠ [] ∧ l.all Char.isDigit then some (digitsToNat (l.map charVal)) else none

/-- See `parseNatDigits`. -/
def pyIntChars : List Char → Option Int
  | [] => none
  | c :: r =>
    if c = '-' then (parseNatDigits r).map (fun n => -(Int.ofNat n))
    else if c = '+' then (parseNatDigits r).map Int.ofNat
    else (parseNatDigits (c :: r)).map Int.ofNat

/-- Python `int(s)` returning `none` where Python raises `ValueError`. -/
def pyInt (s : String) : Option Int := pyIntChars s.data

/-- Python list indexing `row[i]`, including negative indices;
out-of-range indices raise `IndexError`. -/
def pyIndex (row : List String) (i : Int) : Except ImpErr String :=
  if 0 ≤ i then
    match row.get? i.toNat with
    | some v => .ok v
    | none => .error .indexError
  else if i.natAbs ≤ row.length then
    match row.get? (row.length - i.natAbs) with
    | some v => .ok v
    | none => .error .indexError
  else .error .indexError

/-! ### Model of `decimal.Decimal`

A parsed decimal is a mantissa together with the number of fractional
digits: `⟨m, s⟩` stands for `m / 10 ^ s`.  Two values with different
`scale` are distinct, exactly as `Decimal('1.5')` and `Decimal('1.50')`
carry distinct exponents (the importer always compares results of the
same `quantize`, where the scales agree).  The modeled parse grammar is
an optional sign, then digits with at most one dot — the plain positional
notation the importer produces and consumes; exponent notation, `NaN`,
infinities and surrounding whitespace are not modeled. -/

structure Dec where
  mant : Int
  scale : Nat
deriving DecidableEq

/-- Split a character list at its (unique) dot; `none` if there are two
or more dots. -/
def splitAtDot : List Char → Option (List Char × List Char)
  | [] => some ([], [])
  | c :: rest =>
    if c = '.' then
      if rest.contains '.' then none else some ([], rest)
    else (splitAtDot rest).map (fun p => (c :: p.1, p.2))

/-- Parse of the digits-and-dot part of a decimal literal, after the
sign: at most one dot, at least one digit, nothing but digits. -/
def parseDecCore (sign : Int) (chars : List Char) : Option Dec :=
  match splitAtDot chars with
  | none => none
  | some (ip, fp) =>
    if (ip ++ fp) ≠ [] ∧ (ip ++ fp).all Char.isDigit then
      some ⟨sign * (digitsToNat ((ip ++ fp).map charVal) : Int), fp.length⟩
    else none

/-- Parse of `decimal.Decimal(s)` on the modeled grammar: an optional
leading sign, then digits with at most one dot. -/
def parseDec (chars : List Char) : Option Dec :=
  match chars with
  | [] => parseDecCore 1 []
  | c :: r =>
    if c = '-' then parseDecCore (-1) r
    else if c = '+' then parseDecCore 1 r
    else parseDecCore 1 (c :: r)

/-- Round `n / 10 ^ p` to the nearest integer, ties to even
(`ROUND_HALF_EVEN`, the `decimal` module default); `p ≥ 1`. -/
def roundHalfEvenNat (n p : Nat) : Nat :=
  let q := n / 10 ^ p
  let r := n % 10 ^ p
  let half := 10 ^ p / 2
  if half < r then q + 1
  else if r < half then q
  else if q % 2 = 0 then q else q + 1

/-- `Decimal.quantize` to `d` fractional digits with the default
`ROUND_HALF_EVEN` rounding. -/
def quantize (d : Nat) (x : Dec) : Dec :=
  if x.scale ≤ d then ⟨x.mant * (10 : Int) ^ (d - x.scale), d⟩
  else
    let m := roundHalfEvenNat x.mant.natAbs (x.scale - d)
    ⟨if x.mant < 0 then -(m : Int) else (m : Int), d⟩

/-- Lay out an unsigned digit string `padded` with the last `scale`
digits behind a dot (no dot when `scale = 0`). -/
def renderDigitsDot (scale : Nat) (padded : List Char) : List Char :=
  let ip := padded.take (padded.length - scale)
  let fp := padded.drop (padded.length - scale)
  if scale = 0 then ip else ip ++ '.' :: fp

/-- `str()` of a decimal in plain positional notation: sign, integer
digits, and — when `scale > 0` — a dot followed by exactly `scale`
fractional digits (the digit string is zero-padded so that at least one
digit precedes the dot). -/
def renderDecChars (x : Dec) : List Char :=
  let ds := (natDigits x.mant.natAbs).map digitChar
  let padded := List.replicate (x.scale + 1 - ds.length) '0' ++ ds
  (if x.mant < 0 then ['-'] else []) ++ renderDigitsDot x.scale padded

/-- `str()` of a decimal, as a string. -/
def renderDec (x : Dec) : String := ⟨renderDecChars x⟩

/-! ### `ImportCSVColumn` (column mappings) and value coercion

`Column` carries the fields of `import.csv.column` that the import code
reads, with unset `Char` fields modeled as `""`.  `digits` is the target
field's numeric precision (the source reads it from the target model's
metadata via the `digits` property).  `ttype` covers the coercion kinds
the claims exercise; the temporal and relational kinds dispatch the same
way in `get_value` and are not needed here (`get_many2one` is modeled
separately). -/

inductive TType where
  | char
  | integer
  | numeric
  | boolean
deriving DecidableEq

structure Column where
  column : String
  constant : String
  name : String
  subname : String
  ttype : TType
  add_to_domain : Bool
  digits : Nat
deriving DecidableEq

/-- Numeric-format settings of an `import.csv` profile.  Both fields are
`Selection` fields: `thousands_separator ∈ {"none", ".", ",", "others"}`
and `decimal_separator ∈ {".", ","}`. -/
structure NumCfg where
  thousands_separator : String
  decimal_separator : String
deriving DecidableEq

/-- A decoded cell value.  The import code stores strings, ints, decimals
and booleans into the `values` dict. -/
inductive PyValue where
  | str (v : String)
  | int (v : Int)
  | dec (v : Dec)
  | bool (v : Bool)
deriving DecidableEq

/-- `ImportCSVColumn.get_numeric`: strip the thousands separator (unless
`"none"`), turn a comma decimal separator into a dot, then
`Decimal(value).quantize(10 ** -digits)`.  Only the first element of
`values` is used; a parse failure raises `numeric_format_error`; an empty
`values` falls through the loop and returns `None`. -/
def get_numeric (cfg : NumCfg) (digits : Nat) (values : List String) :
    Except ImpErr (Option Dec) :=
  match values with
  | [] => .ok none
  | value :: _ =>
    let v1 := if cfg.thousands_separator ≠ "none" then
        pyStrReplace value cfg.thousands_separator "" else value
    let v2 := if cfg.decimal_separator = "," then
        pyStrReplace v1 "," "." else v1
    match parseDec v2.data with
    | some d => .ok (some (quantize digits d))
    | none => .error (.userError "numeric_format_error")

/-- `ImportCSVColumn.get_char`: join the (already decoded, Python 3)
cell strings with `", "`; pieces are concatenated only once a non-empty
result has been accumulated. -/
def get_char (values : List String) : String :=
  values.foldl
    (fun result value => if result ≠ "" then result ++ ", " ++ value else value) ""

/-- `ImportCSVColumn.get_integer`: `int()` of the first value
(`integer_format_error` on failure), then the 32-bit range check
(`integer_too_big_error`); empty `values` returns `None`. -/
def get_integer (values : List String) : Except ImpErr (Option Int) :=
  match values with
  | [] => .ok none
  | value :: _ =>
    match pyInt value with
    | none => .error (.userError "integer_format_error")
    | some n =>
      if n < -2147483648 ∨ 2147483647 < n then
        .error (.userError "integer_too_big_error")
      else .ok (some n)

/-- `ImportCSVColumn.get_boolean`: `bool(value)` of the first value — the
truthiness of the raw cell string, i.e. `True` iff it is non-empty; empty
`values` returns `None`.  `bool()` of a string never raises, so the
surrounding `try` of the source is dead. -/
def get_boolean (values : List String) : Option Bool :=
  match values with
  | [] => none
  | value :: _ => some (value ≠ "")

/-- `ImportCSVColumn.get_many2one`: searches the relation target by
display name.  The match branch of the source reads `record[0]` where
only `records` is bound, so a non-empty search result raises `NameError`;
an empty result returns `None`.  The external store search is the
`search` argument (returning the matched record ids). -/
def get_many2one (search : String → List Nat) (values : List String) :
    Except ImpErr (Option Nat) :=
  match values with
  | [] => .error .indexError
  | value :: _ =>
    match search value with
    | [] => .ok none
    | _ :: _ => .error .nameError

/-- Dispatch of `getattr(self, 'get_%s' % self.ttype)(values)` over the
modeled coercion kinds. -/
def coerce (cfg : NumCfg) (col : Column) (values : List String) :
    Except ImpErr (Option PyValue) :=
  match col.ttype with
  | .char => .ok (some (.str (get_char values)))
  | .integer => (get_integer values).map (fun o => o.map PyValue.int)
  | .numeric => (get_numeric cfg col.digits values).map (fun o => o.map PyValue.dec)
  | .boolean => .ok ((get_boolean values).map PyValue.bool)

/-- `ImportCSVColumn.get_value`: coerce the cell values when the first
one is non-empty, else coerce `[constant]` when the constant is set, else
return `None` (absent). -/
def get_value (cfg : NumCfg) (col : Column) (values : List String) :
    Except ImpErr (Option PyValue) :=
  match values with
  | value :: _ =>
    if value ≠ "" then coerce cfg col values
    else if col.constant ≠ "" then coerce cfg col [col.constant]
    else .ok none
  | [] =>
    if col.constant ≠ "" then coerce cfg col [col.constant]
    else .ok none

/-! ### Save-time validation of column mappings -/

/-- `ImportCSVColumn.check_sources`: `true` iff validation passes, i.e.
not both `column` and `constant` empty. -/
def check_sources (col : Column) : Bool :=
  !(col.column == "" && col.constant == "")

/-- `ImportCSVColumn.check_columns`: when `column` is set, every
comma-separated token must parse with `int()`. -/
def check_columns (col : Column) : Bool :=
  if col.column == "" then true
  else (pySplit col.column ',').all (fun cell => (pyInt cell).isSome)

/-- `ImportCSVColumn.validate` for a single record: both checks pass. -/
def validateColumn (col : Column) : Bool :=
  check_sources col && check_columns col

/-! ### `ImportCSVFile.import_file_default`

The CSV dialect decoding (`read_csv_file`) and the header skip happen
before the modeled loops; `dataRows` below is the resulting list of data
rows.  The external record store appears as a `search` argument (the
`Model.search(domain, limit=1)` result, as an optional record id) and a
`saveOk` flag (whether the batched `Model.save` call raises).  Log lines
(`add_message_line`) are modeled by their status and message key; the
timestamp, profile name and filename interpolated into the real line are
ambient data. -/

/-- The comprehension `[row[int(c)] for c in cells if c]`: empty tokens
are skipped, `int(c)` may raise `ValueError`, the indexing may raise
`IndexError`. -/
def getVals (row : List String) : List String → Except ImpErr (List String)
  | [] => .ok []
  | c :: rest =>
    if c = "" then getVals row rest
    else
      match pyInt c with
      | none => .error .valueError
      | some i =>
        match pyIndex row i with
        | .ok v => (getVals row rest).map (fun vs => v :: vs)
        | .error e => .error e

/-- One column of the per-row loop of `import_file_default`: a set
constant short-circuits to the raw constant string; otherwise the
referenced cells are read (an `IndexError` is turned into the raised
`csv_format_error` user error) and coerced with `get_value`. -/
def defaultColumnValue (cfg : NumCfg) (col : Column) (row : List String) :
    Except ImpErr (Option PyValue) :=
  if col.constant ≠ "" then .ok (some (.str col.constant))
  else
    match getVals row (pySplit col.column ',') with
    | .error .indexError => .error (.userError "csv_format_error")
    | .error e => .error e
    | .ok vals => get_value cfg col vals

/-- Python dict assignment `d[k] = v` on an insertion-ordered dict. -/
def dictSet (d : List (String × Option PyValue)) (k : String) (v : Option PyValue) :
    List (String × Option PyValue) :=
  if d.any (fun kv => kv.1 == k) then
    d.map (fun kv => if kv.1 == k then (k, v) else kv)
  else d ++ [(k, v)]

/-- The `values` dict and `domain` list built for one row. -/
structure RowData where
  values : List (String × Option PyValue)
  domain : List (String × Option PyValue)
deriving DecidableEq

/-- The per-row column loop of `import_file_default`: for each column get
the value, append `(field, '=', value)` to the domain when
`add_to_domain` is set, and store the value under the field name. -/
def defaultProcessRow (cfg : NumCfg) (cols : List Column) (row : List String) :
    Except ImpErr RowData :=
  cols.foldlM
    (fun acc col => do
      let value ← defaultColumnValue cfg col row
      let acc1 := if col.add_to_domain then
          { acc with domain := acc.domain ++ [(col.name, value)] } else acc
      pure { acc1 with values := dictSet acc1.values col.name value })
    ⟨[], []⟩

/-- The create/update/skip outcome for one row. -/
inductive Decision where
  | create
  | update (target : Nat)
  | skip (target : Nat)
deriving DecidableEq

/-- The dedup decision block of `import_file_default` (lines 605-637): an
empty domain always creates; otherwise, with a search match,
`skip_repeated` is tested first (`continue`), then `update_record`,
else a new record is created. -/
def dedupDecision (domain : List (String × Option PyValue)) (found : Option Nat)
    (skip_repeated update_record : Bool) : Decision :=
  match domain with
  | [] => .create
  | _ :: _ =>
    match found with
    | some r =>
      if skip_repeated then .skip r
      else if update_record then .update r
      else .create
    | none => .create

/-- One log line, by status and message key. -/
structure LogEntry where
  status : String
  key : String
deriving DecidableEq

/-- One entry of the `to_save` batch: the existing record id when
updating (`none` when creating) and the values assigned to it. -/
structure SavedRec where
  target : Option Nat
  values : List (String × Option PyValue)
deriving DecidableEq

/-- Result of a completed run: final state, log lines, and the batch
handed to `Model.save`. -/
structure RunOutcome where
  state : String
  logs : List LogEntry
  to_save : List SavedRec
deriving DecidableEq

/-- The body of `for row in data` in `import_file_default`: skip empty
rows, decode the row, search when the domain is non-empty, then log and
collect according to the dedup decision. -/
def defaultClassifyRow (cfg : NumCfg) (cols : List Column)
    (search : List (String × Option PyValue) → Option Nat)
    (skip_repeated update_record : Bool)
    (acc : List LogEntry × List SavedRec) (row : List String) :
    Except ImpErr (List LogEntry × List SavedRec) :=
  if row = [] then .ok acc
  else do
    let rd ← defaultProcessRow cfg cols row
    let found := if rd.domain ≠ [] then search rd.domain else none
    match dedupDecision rd.domain found skip_repeated update_record with
    | .skip _ => pure (acc.1 ++ [⟨"skipped", "record_already_exists"⟩], acc.2)
    | .update r => pure (acc.1 ++ [⟨"done", "record_updated"⟩], acc.2 ++ [⟨some r, rd.values⟩])
    | .create => pure (acc.1 ++ [⟨"done", "record_added"⟩], acc.2 ++ [⟨none, rd.values⟩])

/-- The whole row loop of `import_file_default`. -/
def defaultProcessRows (cfg : NumCfg) (cols : List Column)
    (search : List (String × Option PyValue) → Option Nat)
    (skip_repeated update_record : Bool) (dataRows : List (List String)) :
    Except ImpErr (List LogEntry × List SavedRec) :=
  dataRows.foldlM (defaultClassifyRow cfg cols search skip_repeated update_record) ([], [])

/-- The tail of `import_file_default`: `state = 'done'`; only when
`to_save` is non-empty is `Model.save` called, prepending an
`import_successfully` summary, or — when the save raises —
switching the state to `'error'` and prepending `import_unsuccessfully`.
The state is then written back in either case (the failure is caught, not
re-raised). -/
def finalizeRun (saveOk : Bool) (logs : List LogEntry) (to_save : List SavedRec) :
    RunOutcome :=
  if to_save = [] then ⟨"done", logs, to_save⟩
  else if saveOk then ⟨"done", ⟨"done", "import_successfully"⟩ :: logs, to_save⟩
  else ⟨"error", ⟨"error", "import_unsuccessfully"⟩ :: logs, to_save⟩

/-- `ImportCSVFile.import_file_default` on the decoded data rows.  An
`Except.error` result is an exception escaping the method: no state
transition and no log is produced in that case. -/
def import_file_default (cfg : NumCfg) (cols : List Column)
    (search : List (String × Option PyValue) → Option Nat) (saveOk : Bool)
    (skip_repeated update_record : Bool) (dataRows : List (List String)) :
    Except ImpErr RunOutcome :=
  (defaultProcessRows cfg cols search skip_repeated update_record dataRows).map
    (fun acc => finalizeRun saveOk acc.1 acc.2)

/-! ### Grouped assembly: `import_file_party` and `import_file_sale`

Both methods first fold the data rows into a list of grouped drafts
(`rows` in the source) before any store interaction; the claims concern
this assembly loop, modeled here.  Domains accumulate flat
`(field, '=', value)` items for a parent row; a child row's domain list
is appended to the parent's domain as a single nested element
(`rows[-1]['domain'].append(domain)`), modeled by `DomEntry.group`.  A
parent whose own domain was empty stores `None` — a later child append
then calls `.append` on `None`, an `AttributeError`. -/

inductive DomEntry where
  | item (field : String) (value : Option PyValue)
  | group (items : List (String × Option PyValue))
deriving DecidableEq

/-- A grouped party draft under assembly: the parent `values` dict, the
three child collections and the optional domain. -/
structure PDraft where
  values : List (String × Option PyValue)
  addresses : List (List (String × Option PyValue))
  contact_mechanisms : List (List (String × Option PyValue))
  identifiers : List (Option PyValue)
  domain : Option (List DomEntry)
deriving DecidableEq

/-- The per-row mutable state of the party column loop. -/
structure PRowAcc where
  is_party : Bool
  is_address : Bool
  is_contact : Bool
  identifiers : List (Option PyValue)
  domain : List (String × Option PyValue)
  values : List (String × Option PyValue)
deriving DecidableEq

/-- One column of the party row loop (lines 701-733).  Note that
`cell = int(cells[0])` runs before the constant is consulted, and that
`row[cell]` — evaluated by the branch conditions — is outside the
`try/except IndexError` of the cell comprehension. -/
def partyProcessColumn (cfg : NumCfg) (row : List String) (acc : PRowAcc)
    (col : Column) : Except ImpErr PRowAcc := do
  let cells := pySplit col.column ','
  let cellIdx ← match pyInt (cells.headD "") with
    | some i => Except.ok i
    | none => Except.error ImpErr.valueError
  let value ← (if col.constant ≠ "" then Except.ok (some (PyValue.str col.constant))
    else
      match getVals row cells with
      | .error .indexError => Except.error (ImpErr.userError "csv_format_error")
      | .error e => Except.error e
      | .ok vals => get_value cfg col vals)
  let cellVal ← pyIndex row cellIdx
  if col.name = "addresses" ∧ cellVal ≠ "" then
    pure { acc with
           is_address := true, is_party := false,
           values := dictSet acc.values col.subname value,
           domain := if col.add_to_domain then
             acc.domain ++ [("addresses." ++ col.subname, value)] else acc.domain }
  else if col.name = "contact_mechanisms" ∧ cellVal ≠ "" then
    pure { acc with
           is_contact := true, is_party := false,
           values := dictSet acc.values col.subname value,
           domain := if col.add_to_domain then
             acc.domain ++ [("contact_mechanisms." ++ col.subname, value)] else acc.domain }
  else if col.name = "identifiers" ∧ cellVal ≠ "" then
    pure { acc with identifiers := acc.identifiers ++ [value] }
  else if cellVal ≠ "" then
    pure { acc with
           values := dictSet acc.values col.name value,
           domain := acc.domain ++ [(col.name, value)] }
  else
    pure acc

/-- Append one child entry (with its domain) to the last draft;
`rows[-1]` on an empty list raises `IndexError`, and appending a
non-empty child domain to a `None` parent domain raises
`AttributeError`. -/
def appendChild (rows : List PDraft) (childDomain : List (String × Option PyValue))
    (update : PDraft → PDraft) : Except ImpErr (List PDraft) :=
  match rows.getLast? with
  | none => .error .indexError
  | some last =>
    let last1 := update last
    match childDomain with
    | [] => .ok (rows.dropLast ++ [last1])
    | _ :: _ =>
      match last1.domain with
      | none => .error .attributeError
      | some d =>
        .ok (rows.dropLast ++ [{ last1 with domain := some (d ++ [DomEntry.group childDomain]) }])

/-- One row of the party assembly loop (lines 693-751): run the column
loop, then either append a child entry to the current draft or start a
new top-level draft. -/
def partyRowStep (cfg : NumCfg) (cols : List Column) (rows : List PDraft)
    (row : List String) : Except ImpErr (List PDraft) := do
  let acc ← cols.foldlM (partyProcessColumn cfg row) ⟨true, false, false, [], [], []⟩
  if acc.is_address ∧ acc.values ≠ [] then
    appendChild rows acc.domain
      (fun last => { last with addresses := last.addresses ++ [acc.values] })
  else if acc.is_contact ∧ acc.values ≠ [] then
    appendChild rows acc.domain
      (fun last => { last with contact_mechanisms := last.contact_mechanisms ++ [acc.values] })
  else if acc.is_party ∧ acc.values ≠ [] then
    pure (rows ++ [⟨acc.values, [], [], acc.identifiers,
      if acc.domain ≠ [] then
        some (acc.domain.map (fun kv => DomEntry.item kv.1 kv.2)) else none⟩])
  else
    pure rows

/-- The grouped assembly phase of `import_file_party`. -/
def partyAssemble (cfg : NumCfg) (cols : List Column)
    (dataRows : List (List String)) : Except ImpErr (List PDraft) :=
  dataRows.foldlM (partyRowStep cfg cols) []

/-- A grouped sale draft under assembly. -/
structure SDraft where
  values : List (String × Option PyValue)
  lines : List (List (String × Option PyValue))
  domain : Option (List DomEntry)
deriving DecidableEq

/-- The per-row mutable state of the sale column loop. -/
structure SRowAcc where
  is_sale : Bool
  is_line : Bool
  domain : List (String × Option PyValue)
  values : List (String × Option PyValue)
deriving DecidableEq

/-- One column of the sale row loop (lines 900-930).  `productSearch` is
the external `Product.search([('rec_name', '=', value)])` call as a
non-emptiness test: a line's `product` subfield stores the value under
`product` when a product matches and under `description` otherwise. -/
def saleProcessColumn (cfg : NumCfg) (productSearch : Option PyValue → Bool)
    (row : List String) (acc : SRowAcc) (col : Column) : Except ImpErr SRowAcc := do
  let cells := pySplit col.column ','
  let cellIdx ← match pyInt (cells.headD "") with
    | some i => Except.ok i
    | none => Except.error ImpErr.valueError
  let value ← (if col.constant ≠ "" then Except.ok (some (PyValue.str col.constant))
    else
      match getVals row cells with
      | .error .indexError => Except.error (ImpErr.userError "csv_format_error")
      | .error e => Except.error e
      | .ok vals => get_value cfg col vals)
  let cellVal ← pyIndex row cellIdx
  if col.name = "line" ∧ cellVal ≠ "" then
    let acc1 :=
      if col.subname = "product" then
        if productSearch value then
          { acc with values := dictSet acc.values col.subname value }
        else
          { acc with values := dictSet acc.values "description" value }
      else acc
    pure { acc1 with
           is_line := true, is_sale := false,
           domain := if col.add_to_domain then
             acc1.domain ++ [("lines." ++ col.subname, value)] else acc1.domain }
  else if cellVal ≠ "" then
    pure { acc with
           values := dictSet acc.values col.name value,
           domain := acc.domain ++ [(col.name, value)] }
  else
    pure acc

/-- Append one line entry (with its domain) to the last sale draft;
`rows[-1]` on an empty list raises `IndexError`. -/
def appendLine (rows : List SDraft) (childDomain : List (String × Option PyValue))
    (entry : List (String × Option PyValue)) : Except ImpErr (List SDraft) :=
  match rows.getLast? with
  | none => .error .indexError
  | some last =>
    let last1 := { last with lines := last.lines ++ [entry] }
    match childDomain with
    | [] => .ok (rows.dropLast ++ [last1])
    | _ :: _ =>
      match last1.domain with
      | none => .error .attributeError
      | some d =>
        .ok (rows.dropLast ++ [{ last1 with domain := some (d ++ [DomEntry.group childDomain]) }])

/-- One row of the sale assembly loop (lines 894-942). -/
def saleRowStep (cfg : NumCfg) (productSearch : Option PyValue → Bool)
    (cols : List Column) (rows : List SDraft) (row : List String) :
    Except ImpErr (List SDraft) := do
  let acc ← cols.foldlM (saleProcessColumn cfg productSearch row) ⟨true, false, [], []⟩
  if acc.is_line ∧ acc.values ≠ [] then
    appendLine rows acc.domain acc.values
  else if acc.is_sale ∧ acc.values ≠ [] then
    pure (rows ++ [⟨acc.values, [],
      if acc.domain ≠ [] then
        some (acc.domain.map (fun kv => DomEntry.item kv.1 kv.2)) else none⟩])
  else
    pure rows

/-- The grouped assembly phase of `import_file_sale`. -/
def saleAssemble (cfg : NumCfg) (productSearch : Option PyValue → Bool)
    (cols : List Column) (dataRows : List (List String)) : Except ImpErr (List SDraft) :=
  dataRows.foldlM (saleRowStep cfg productSearch cols) []

/-! ### Concrete profile fixtures used by the claim theorems -/

/-- The module's default numeric settings: thousands `"."`, decimal `","`. -/
def cfg0 : NumCfg := ⟨".", ","⟩

/-- A plain char column on cell 0 mapped to `name`, flagged for the
search domain. -/
def colName0 : Column := ⟨"0", "", "name", "", TType.char, true, 2⟩

/-- A party child column: cell 0 feeds `addresses`/`street`. -/
def colStreet0 : Column := ⟨"0", "", "addresses", "street", TType.char, false, 2⟩

/-- A party parent column: cell 1 feeds `name`. -/
def colPName0 : Column := ⟨"1", "", "name", "", TType.char, false, 2⟩

/-- A party profile with one child-marked column and one parent column. -/
def pcols0 : List Column := [colStreet0, colPName0]

/-- A sale child column: cell 0 feeds `line`/`product`. -/
def colLine0 : Column := ⟨"0", "", "line", "product", TType.char, false, 2⟩

/-- A sale parent column: cell 1 feeds `party`. -/
def colSParty0 : Column := ⟨"1", "", "party", "", TType.char, false, 2⟩

/-- A sale profile with one line column and one parent column. -/
def scols0 : List Column := [colLine0, colSParty0]

/-- The party draft produced by a `pcols0` row whose only populated cell
is the `name` cell. -/
def pDraftN (n : String) : PDraft :=
  ⟨[("name", some (.str n))], [], [], [], some [.item "name" (some (.str n))]⟩

/-! ### Arithmetic facts about the digit machinery -/

theorem digitsToNat_from (a : Nat) (l : List Nat) :
    l.foldl (fun a d => a * 10 + d) a = a * 10 ^ l.length + digitsToNat l := by
  induction l generalizing a with
  | nil => simp [digitsToNat]
  | cons d t ih =>
    simp only [List.foldl_cons, digitsToNat, List.length_cons]
    rw [ih (a * 10 + d), ih (0 * 10 + d)]
    ring

theorem digitsToNat_append (l1 l2 : List Nat) :
    digitsToNat (l1 ++ l2) = digitsToNat l1 * 10 ^ l2.length + digitsToNat l2 := by
  unfold digitsToNat
  rw [List.foldl_append, digitsToNat_from]
  rfl

theorem digitsToNat_replicate_zero (k : Nat) (l : List Nat) :
    digitsToNat (List.replicate k 0 ++ l) = digitsToNat l := by
  induction k with
  | zero => simp
  | succ k ih =>
    simpa [digitsToNat, List.replicate_succ] using ih

theorem natDigitsAux_spec (fuel : Nat) : ∀ n, n ≤ fuel →
    digitsToNat (natDigitsAux fuel n) = n := by
  induction fuel with
  | zero =>
    intro n hn
    interval_cases n
    decide
  | succ fuel ih =>
    intro n hn
    by_cases h : n < 10
    · simp [natDigitsAux, h, digitsToNat]
    · have h10 : 10 ≤ n := Nat.le_of_not_lt h
      have hdiv : n / 10 ≤ fuel := by
        have : n / 10 < n := Nat.div_lt_self (by omega) (by omega)
        omega
      simp only [natDigitsAux, if_neg h]
      rw [digitsToNat_append, ih _ hdiv]
      simp [digitsToNat]
      omega

theorem digitsToNat_natDigits (n : Nat) : digitsToNat (natDigits n) = n :=
  natDigitsAux_spec n n le_rfl

theorem natDigitsAux_lt_ten (fuel : Nat) : ∀ n d, d ∈ natDigitsAux fuel n → d < 10 := by
  induction fuel with
  | zero =>
    intro n d hd
    simp only [natDigitsAux, List.mem_singleton] at hd
    omega
  | succ fuel ih =>
    intro n d hd
    by_cases h : n < 10
    · simp [natDigitsAux, h] at hd
      omega
    · simp only [natDigitsAux, if_neg h, List.mem_append, List.mem_singleton] at hd
      rcases hd with hd | hd
      · exact ih _ _ hd
      · omega

theorem natDigits_lt_ten (n d : Nat) (h : d ∈ natDigits n) : d < 10 :=
  natDigitsAux_lt_ten n n d h

theorem natDigitsAux_ne_nil (fuel n : Nat) : natDigitsAux fuel n ≠ [] := by
  cases fuel with
  | zero => simp [natDigitsAux]
  | succ fuel =>
    by_cases h : n < 10 <;> simp [natDigitsAux, h]

theorem natDigits_ne_nil (n : Nat) : natDigits n ≠ [] := natDigitsAux_ne_nil n n

theorem digitChar_isDigit (d : Nat) (h : d < 10) : (digitChar d).isDigit = true := by
  interval_cases d <;> decide

theorem charVal_digitChar (d : Nat) (h : d < 10) : charVal (digitChar d) = d := by
  interval_cases d <;> decide

theorem isDigit_ne_special (c : Char) (h : c.isDigit = true) :
    c ≠ '.' ∧ c ≠ ',' ∧ c ≠ '-' ∧ c ≠ '+' ∧ c ≠ 'o' := by
  refine ⟨?_, ?_, ?_, ?_, ?_⟩ <;> (intro hc; subst hc; exact absurd h (by decide))

/-! ### `str.replace` leaves a string without the pattern unchanged -/

theorem pyReplaceAux_id (p : Char) (ps new s : List Char) (h : p ∉ s) :
    pyReplaceAux (p :: ps) new s 0 = s := by
  induction s with
  | nil => rfl
  | cons c cs ih =>
    have hpc : (p == c) = false := by
      simp only [List.mem_cons, not_or] at h
      simp [h.1]
    have hih := ih (by simp only [List.mem_cons, not_or] at h; exact h.2)
    simp [pyReplaceAux, listStartsWith, hpc, hih]

theorem pyStrReplace_id (s pat new : String) (p : Char) (ps : List Char)
    (hpat : pat.data = p :: ps) (h : p ∉ s.data) : pyStrReplace s pat new = s := by
  unfold pyStrReplace
  rw [hpat, pyReplaceAux_id p ps new.data s.data h]

/-! ### `splitAtDot` on rendered strings -/

theorem splitAtDot_no_dot (l : List Char) (h : '.' ∉ l) :
    splitAtDot l = some (l, []) := by
  induction l with
  | nil => rfl
  | cons c cs ih =>
    simp only [List.mem_cons, not_or] at h
    have hc : ¬(c = '.') := fun hc => h.1 hc.symm
    simp [splitAtDot, hc, ih h.2]

theorem splitAtDot_dot (ip fp : List Char) (h1 : '.' ∉ ip) (h2 : '.' ∉ fp) :
    splitAtDot (ip ++ '.' :: fp) = some (ip, fp) := by
  induction ip with
  | nil =>
    simp [splitAtDot, h2]
  | cons c cs ih =>
    simp only [List.mem_cons, not_or] at h1
    have hc : ¬(c = '.') := fun hc => h1.1 hc.symm
    simp [splitAtDot, hc, ih h1.2]

/-! ### `parseDec` recovers a rendered decimal -/

theorem parseDecCore_digits (sign : Int) (l : List Char) (hne : l ≠ [])
    (hdig : ∀ c ∈ l, c.isDigit = true) :
    parseDecCore sign l = some ⟨sign * (digitsToNat (l.map charVal) : Int), 0⟩ := by
  have hnd : '.' ∉ l := fun hc => (isDigit_ne_special _ (hdig _ hc)).1 rfl
  unfold parseDecCore
  rw [splitAtDot_no_dot l hnd]
  simp [hne, List.all_eq_true.2 hdig]

theorem parseDecCore_digits_dot (sign : Int) (ip fp : List Char)
    (hne : ip ++ fp ≠ []) (hdig : ∀ c ∈ ip ++ fp, c.isDigit = true) :
    parseDecCore sign (ip ++ '.' :: fp) =
      some ⟨sign * (digitsToNat ((ip ++ fp).map charVal) : Int), fp.length⟩ := by
  have hd1 : '.' ∉ ip := fun hc =>
    (isDigit_ne_special _ (hdig _ (List.mem_append.2 (Or.inl hc)))).1 rfl
  have hd2 : '.' ∉ fp := fun hc =>
    (isDigit_ne_special _ (hdig _ (List.mem_append.2 (Or.inr hc)))).1 rfl
  unfold parseDecCore
  rw [splitAtDot_dot ip fp hd1 hd2]
  simp [hne, List.all_eq_true.2 hdig]

theorem parseDecCore_renderDigitsDot (sign : Int) (scale : Nat) (padded : List Char)
    (hdig : ∀ c ∈ padded, c.isDigit = true) (hlen : scale + 1 ≤ padded.length) :
    parseDecCore sign (renderDigitsDot scale padded) =
      some ⟨sign * (digitsToNat (padded.map charVal) : Int), scale⟩ := by
  have hne : padded ≠ [] := by
    intro h
    rw [h] at hlen
    simp at hlen
  by_cases hs : scale = 0
  · subst hs
    simpa [renderDigitsDot] using parseDecCore_digits sign padded hne hdig
  · have hip : padded.take (padded.length - scale) ++
        padded.drop (padded.length - scale) = padded := List.take_append_drop _ _
    have hdig2 : ∀ c ∈ padded.take (padded.length - scale) ++
        padded.drop (padded.length - scale), c.isDigit = true := by
      rw [hip]; exact hdig
    have hne2 : padded.take (padded.length - scale) ++
        padded.drop (padded.length - scale) ≠ [] := by
      rw [hip]; exact hne
    have hfp : (padded.drop (padded.length - scale)).length = scale := by
      rw [List.length_drop]
      omega
    rw [renderDigitsDot, if_neg hs,
      parseDecCore_digits_dot sign _ _ hne2 hdig2, hip, hfp]

theorem renderDigitsDot_head (scale : Nat) (padded : List Char)
    (hlen : scale + 1 ≤ padded.length) :
    ∃ c r, renderDigitsDot scale padded = c :: r ∧ c ∈ padded := by
  have hip_len : 1 ≤ (padded.take (padded.length - scale)).length := by
    rw [List.length_take]
    omega
  rcases hip : padded.take (padded.length - scale) with _ | ⟨c, cs⟩
  · rw [hip] at hip_len
    simp at hip_len
  · have hcmem : c ∈ padded := List.take_subset _ _ (by rw [hip]; exact List.mem_cons_self c cs)
    by_cases hs : scale = 0
    · exact ⟨c, cs, by rw [renderDigitsDot, if_pos hs, hip], hcmem⟩
    · exact ⟨c, cs ++ '.' :: padded.drop (padded.length - scale),
        by rw [renderDigitsDot, if_neg hs, hip]; rfl, hcmem⟩

theorem padded_isDigit (k m : Nat) (c : Char)
    (h : c ∈ List.replicate k '0' ++ (natDigits m).map digitChar) : c.isDigit = true := by
  rcases List.mem_append.1 h with h | h
  · rw [List.eq_of_mem_replicate h]
    decide
  · rcases List.mem_map.1 h with ⟨d, hd, rfl⟩
    exact digitChar_isDigit d (natDigits_lt_ten m d hd)

theorem padded_val (k m : Nat) :
    digitsToNat ((List.replicate k '0' ++ (natDigits m).map digitChar).map charVal) = m := by
  rw [List.map_append, List.map_replicate, List.map_map]
  have h2 : (natDigits m).map (charVal ∘ digitChar) = natDigits m := by
    rw [show natDigits m = (natDigits m).map id from (List.map_id _).symm]
    simp only [List.map_map]
    refine List.map_congr_left ?_
    intro d hd
    simp [charVal_digitChar d (natDigits_lt_ten m d (by simpa using hd))]
  rw [show charVal '0' = 0 from rfl, h2, digitsToNat_replicate_zero, digitsToNat_natDigits]

theorem padded_len (k m s : Nat) (hk : k = s + 1 - ((natDigits m).map digitChar).length) :
    s + 1 ≤ (List.replicate k '0' ++ (natDigits m).map digitChar).length := by
  have hne : (natDigits m).map digitChar ≠ [] := by
    simp [natDigits_ne_nil m]
  have hpos : 1 ≤ ((natDigits m).map digitChar).length := List.length_pos.2 hne
  rw [List.length_append, List.length_replicate]
  omega

/-- Parsing a rendered decimal gives back exactly the same mantissa and
scale. -/
theorem parseDec_renderDecChars (x : Dec) : parseDec (renderDecChars x) = some x := by
  obtain ⟨m, s⟩ := x
  have hdig : ∀ c ∈ List.replicate (s + 1 - ((natDigits m.natAbs).map digitChar).length) '0' ++
      (natDigits m.natAbs).map digitChar, c.isDigit = true :=
    fun c hc => padded_isDigit _ _ c hc
  have hlen : s + 1 ≤ (List.replicate (s + 1 - ((natDigits m.natAbs).map digitChar).length) '0' ++
      (natDigits m.natAbs).map digitChar).length := padded_len _ _ _ rfl
  have hcore : ∀ sign : Int, parseDecCore sign
      (renderDigitsDot s (List.replicate (s + 1 - ((natDigits m.natAbs).map digitChar).length) '0' ++
        (natDigits m.natAbs).map digitChar)) = some ⟨sign * (m.natAbs : Int), s⟩ := by
    intro sign
    rw [parseDecCore_renderDigitsDot sign s _ hdig hlen, padded_val]
  by_cases hm : m < 0
  · have : renderDecChars ⟨m, s⟩ = '-' ::
        renderDigitsDot s (List.replicate (s + 1 - ((natDigits m.natAbs).map digitChar).length) '0' ++
          (natDigits m.natAbs).map digitChar) := by
      simp [renderDecChars, hm]
    rw [this, parseDec, if_pos rfl, hcore (-1)]
    have h2 : -(m.natAbs : Int) = m := by omega
    rw [neg_one_mul, h2]
  · have hrw : renderDecChars ⟨m, s⟩ =
        renderDigitsDot s (List.replicate (s + 1 - ((natDigits m.natAbs).map digitChar).length) '0' ++
          (natDigits m.natAbs).map digitChar) := by
      simp [renderDecChars, hm]
    obtain ⟨c, r, hcr, hcmem⟩ := renderDigitsDot_head s _ hlen
    have hcd := hdig c hcmem
    obtain ⟨_, _, hc1, hc2, _⟩ := isDigit_ne_special c hcd
    rw [hrw, hcr, parseDec, if_neg hc1, if_neg hc2, ← hcr, hcore 1]
    have h2 : (m.natAbs : Int) = m := by omega
    rw [one_mul, h2]

/-! ### Characters of a rendered decimal -/

theorem renderDigitsDot_mem (scale : Nat) (padded : List Char) (c : Char)
    (h : c ∈ renderDigitsDot scale padded) : c ∈ padded ∨ c = '.' := by
  simp only [renderDigitsDot] at h
  by_cases hs : scale = 0
  · rw [if_pos hs] at h
    exact Or.inl (List.take_subset _ _ h)
  · rw [if_neg hs] at h
    rcases List.mem_append.1 h with h | h
    · exact Or.inl (List.take_subset _ _ h)
    · rcases List.mem_cons.1 h with h | h
      · exact Or.inr h
      · exact Or.inl (List.drop_subset _ _ h)

theorem renderDecChars_mem (x : Dec) (c : Char) (h : c ∈ renderDecChars x) :
    c.isDigit = true ∨ c = '.' ∨ c = '-' := by
  simp only [renderDecChars] at h
  rcases List.mem_append.1 h with h | h
  · by_cases hm : x.mant < 0
    · rw [if_pos hm] at h
      right; right
      simpa using h
    · rw [if_neg hm] at h
      simp at h
  · rcases renderDigitsDot_mem _ _ _ h with h | h
    · exact Or.inl (padded_isDigit _ _ _ h)
    · exact Or.inr (Or.inl h)

theorem renderDec_no_comma (x : Dec) : ',' ∉ (renderDec x).data := by
  intro h
  rcases renderDecChars_mem x ',' h with h | h | h
  · exact absurd h (by decide)
  · exact absurd h (by decide)
  · exact absurd h (by decide)

theorem renderDec_no_o (x : Dec) : 'o' ∉ (renderDec x).data := by
  intro h
  rcases renderDecChars_mem x 'o' h with h | h | h
  · exact absurd h (by decide)
  · exact absurd h (by decide)
  · exact absurd h (by decide)

/-! ### Facts about `quantize` -/

theorem quantize_scale (d : Nat) (x : Dec) : (quantize d x).scale = d := by
  unfold quantize
  split <;> rfl

theorem quantize_self (d : Nat) (m : Int) : quantize d ⟨m, d⟩ = ⟨m, d⟩ := by
  simp [quantize]

theorem get_numeric_scale (cfg : NumCfg) (digits : Nat) (vals : List String) (x : Dec)
    (h : get_numeric cfg digits vals = .ok (some x)) : x.scale = digits := by
  rcases vals with _ | ⟨value, rest⟩
  · simp [get_numeric] at h
  · simp only [get_numeric] at h
    split at h
    · rename_i d hd
      simp only [Except.ok.injEq, Option.some.injEq] at h
      rw [← h, quantize_scale]
    · exact absurd h (by simp)

theorem get_numeric_renderDec (cfg : NumCfg) (digits : Nat) (x : Dec)
    (hsel : cfg.thousands_separator = "none" ∨ cfg.thousands_separator = "," ∨
      cfg.thousands_separator = "others")
    (hscale : x.scale = digits) :
    get_numeric cfg digits [renderDec x] = .ok (some x) := by
  have h1 : (if cfg.thousands_separator ≠ "none" then
      pyStrReplace (renderDec x) cfg.thousands_separator "" else renderDec x) =
      renderDec x := by
    rcases hsel with h | h | h <;> rw [h]
    · simp
    · rw [if_pos (by decide)]
      exact pyStrReplace_id _ _ _ ',' [] rfl (renderDec_no_comma x)
    · rw [if_pos (by decide)]
      exact pyStrReplace_id _ _ _ 'o' ['t', 'h', 'e', 'r', 's'] rfl (renderDec_no_o x)
  have h2 : (if cfg.decimal_separator = "," then
      pyStrReplace (renderDec x) "," "." else renderDec x) = renderDec x := by
    by_cases hd : cfg.decimal_separator = ","
    · rw [if_pos hd]
      exact pyStrReplace_id _ _ _ ',' [] rfl (renderDec_no_comma x)
    · rw [if_neg hd]
  simp only [get_numeric, h1, h2]
  rw [show (renderDec x).data = renderDecChars x from rfl, parseDec_renderDecChars]
  obtain ⟨xm, xs⟩ := x
  have hxs : xs = digits := hscale
  subst hxs
  show Except.ok (some (quantize xs ⟨xm, xs⟩)) = _
  rw [quantize_self]

/-! ### Reduction helpers for `Except` computations -/

theorem except_pure {α : Type} (a : α) : (pure a : Except ImpErr α) = .ok a := rfl

theorem except_bind_ok {α β : Type} (a : α) (f : α → Except ImpErr β) :
    (Except.ok a >>= f) = f a := rfl

theorem except_bind_error {α β : Type} (e : ImpErr) (f : α → Except ImpErr β) :
    ((Except.error e : Except ImpErr α) >>= f) = .error e := rfl

theorem except_map_error {α β : Type} (e : ImpErr) (f : α → β) :
    (Except.error e : Except ImpErr α).map f = .error e := rfl

theorem foldlM_step {α β : Type} (f : β → α → Except ImpErr β) (b b1 : β) (r : α)
    (rs : List α) (h : f b r = .ok b1) :
    List.foldlM f b (r :: rs) = List.foldlM f b1 rs := by
  simp [List.foldlM, h, except_bind_ok]

theorem foldlM_error {α β : Type} (f : β → α → Except ImpErr β) (b : β) (r : α)
    (rs : List α) (e : ImpErr) (h : f b r = .error e) :
    List.foldlM f b (r :: rs) = .error e := by
  simp [List.foldlM, h, except_bind_error]

/-! ### Tokens accepted by `int()` contain no comma -/

theorem parseNatDigits_digits (l : List Char) (n : Nat) (h : parseNatDigits l = some n) :
    l ≠ [] ∧ ∀ c ∈ l, c.isDigit = true := by
  unfold parseNatDigits at h
  split at h
  · rename_i hcond
    exact ⟨hcond.1, List.all_eq_true.1 hcond.2⟩
  · exact absurd h (by simp)

theorem pyIntChars_cons (c : Char) (r : List Char) :
    pyIntChars (c :: r) =
      if c = '-' then (parseNatDigits r).map (fun n => -(Int.ofNat n))
      else if c = '+' then (parseNatDigits r).map Int.ofNat
      else (parseNatDigits (c :: r)).map Int.ofNat := rfl

theorem pyInt_no_comma (tok : String) (n : Int) (h : pyInt tok = some n) :
    ',' ∉ tok.data := by
  unfold pyInt at h
  rcases htok : tok.data with _ | ⟨c, cs⟩ <;> rw [htok] at h
  · simp
  · rw [pyIntChars_cons] at h
    intro hmem
    by_cases hc1 : c = '-'
    · rw [if_pos hc1] at h
      rcases Option.map_eq_some'.1 h with ⟨m, hm, _⟩
      have hd := (parseNatDigits_digits cs m hm).2
      rcases List.mem_cons.1 hmem with hx | hx
      · exact absurd (hc1 ▸ hx.symm) (by decide)
      · exact absurd (hd ',' hx) (by decide)
    · rw [if_neg hc1] at h
      by_cases hc2 : c = '+'
      · rw [if_pos hc2] at h
        rcases Option.map_eq_some'.1 h with ⟨m, hm, _⟩
        have hd := (parseNatDigits_digits cs m hm).2
        rcases List.mem_cons.1 hmem with hx | hx
        · exact absurd (hc2 ▸ hx.symm) (by decide)
        · exact absurd (hd ',' hx) (by decide)
      · rw [if_neg hc2] at h
        rcases Option.map_eq_some'.1 h with ⟨m, hm, _⟩
        have hd := (parseNatDigits_digits (c :: cs) m hm).2
        exact absurd (hd ',' hmem) (by decide)

theorem pySplitChars_no_sep (sep : Char) (l : List Char) (h : sep ∉ l) :
    pySplitChars sep l = [l] := by
  induction l with
  | nil => rfl
  | cons c cs ih =>
    simp only [List.mem_cons, not_or] at h
    have hc : ¬(c = sep) := fun hc => h.1 hc.symm
    simp [pySplitChars, hc, ih h.2]

theorem pySplit_single (s : String) (sep : Char) (h : sep ∉ s.data) :
    pySplit s sep = [s] := by
  unfold pySplit
  rw [pySplitChars_no_sep sep s.data h]
  rfl

/-! ### A row shorter than a referenced cell index aborts the default run -/

/-- C8 (amended): when the first data row is shorter than the (single)
column's referenced cell index, the whole run aborts with the raised
`csv_format_error` user error propagating to the caller: no further rows
are processed, nothing is persisted, no state transition and no summary
log entry happen (the run is left in its prior `draft` state, not an
`error` state). -/
theorem import_default_short_row (cfg : NumCfg) (c : Column)
    (search : List (String × Option PyValue) → Option Nat) (saveOk s u : Bool)
    (tok : String) (i : Nat) (r : List String) (rest : List (List String))
    (hconst : c.constant = "") (hcol : c.column = tok)
    (htok : pyInt tok = some (Int.ofNat i)) (hr : r ≠ []) (hlen : r.length ≤ i) :
    import_file_default cfg [c] search saveOk s u (r :: rest) =
      .error (ImpErr.userError "csv_format_error") := by
  have hnc : ',' ∉ tok.data := pyInt_no_comma tok _ htok
  have hsplit : pySplit tok ',' = [tok] := pySplit_single tok ',' hnc
  have htokne : ¬(tok = "") := by
    intro he
    rw [he, show pyInt "" = none from rfl] at htok
    simp at htok
  have hidx : pyIndex r (Int.ofNat i) = .error .indexError := by
    unfold pyIndex
    rw [if_pos (show (0 : Int) ≤ Int.ofNat i from Int.natCast_nonneg i)]
    have hnone : r.get? (Int.ofNat i).toNat = none := by
      rw [List.get?_eq_none]
      simpa using hlen
    rw [hnone]
  have hvals : getVals r [tok] = .error .indexError := by
    unfold getVals
    rw [if_neg htokne]
    simp only [htok, hidx]
  have hcolval : defaultColumnValue cfg c r = .error (.userError "csv_format_error") := by
    unfold defaultColumnValue
    rw [hconst, hcol]
    simp only [hsplit, hvals, ne_eq, not_true_eq_false, if_false]
  have hrow : defaultProcessRow cfg [c] r = .error (.userError "csv_format_error") := by
    unfold defaultProcessRow
    exact foldlM_error _ _ _ _ _ (by simp [hcolval, except_bind_error])
  have hclass : defaultClassifyRow cfg [c] search s u ([], []) r =
      .error (.userError "csv_format_error") := by
    unfold defaultClassifyRow
    rw [if_neg hr]
    simp [hrow, except_bind_error]
  unfold import_file_default defaultProcessRows
  rw [foldlM_error _ _ _ _ _ hclass, except_map_error]

/-! ### Evaluation of the party column loop on two-cell rows -/

theorem party_col_street_empty (w : String) (acc : PRowAcc) :
    partyProcessColumn cfg0 ["", w] acc colStreet0 = .ok acc := rfl

theorem party_col_street (a w : String) (acc : PRowAcc) (ha : a ≠ "") :
    partyProcessColumn cfg0 [a, w] acc colStreet0 =
      .ok { acc with
            is_address := true, is_party := false,
            values := dictSet acc.values "street" (some (.str a)) } := by
  have h0 : pySplit "0" ',' = ["0"] := by decide
  have h1 : pyInt "0" = some 0 := by decide
  have h2 : getVals [a, w] ["0"] = .ok [a] := rfl
  have h3 : pyIndex [a, w] (0 : Int) = .ok a := rfl
  have h4 : get_char [a] = a := rfl
  simp [partyProcessColumn, colStreet0, h0, h1, h2, h3, h4, get_value, coerce, ha,
    except_bind_ok, except_pure]

theorem party_col_name_empty (x : String) (acc : PRowAcc) :
    partyProcessColumn cfg0 [x, ""] acc colPName0 = .ok acc := rfl

theorem party_col_name (x w : String) (acc : PRowAcc) (hw : w ≠ "") :
    partyProcessColumn cfg0 [x, w] acc colPName0 =
      .ok { acc with
            values := dictSet acc.values "name" (some (.str w)),
            domain := acc.domain ++ [("name", some (.str w))] } := by
  have h0 : pySplit "1" ',' = ["1"] := by decide
  have h1 : pyInt "1" = some 1 := by decide
  have h2 : getVals [x, w] ["1"] = .ok [w] := rfl
  have h3 : pyIndex [x, w] (1 : Int) = .ok w := rfl
  have h4 : get_char [w] = w := rfl
  simp [partyProcessColumn, colPName0, h0, h1, h2, h3, h4, get_value, coerce, hw,
    except_bind_ok, except_pure]

/-! ### Evaluation of one party assembly row -/

theorem appendChild_concat (ds : List PDraft) (d : PDraft) (upd : PDraft → PDraft) :
    appendChild (ds ++ [d]) [] upd = .ok (ds ++ [upd d]) := by
  simp [appendChild, List.getLast?_concat, List.dropLast_concat]

theorem appendChild_concat_group (ds : List PDraft) (d : PDraft)
    (q : String × Option PyValue) (qs : List (String × Option PyValue))
    (upd : PDraft → PDraft) (dm : List DomEntry) (hupd : (upd d).domain = some dm) :
    appendChild (ds ++ [d]) (q :: qs) upd =
      .ok (ds ++ [{ upd d with domain := some (dm ++ [DomEntry.group (q :: qs)]) }]) := by
  simp [appendChild, List.getLast?_concat, List.dropLast_concat, hupd]

theorem partyRowStep_parent (rows : List PDraft) (n : String) (hn : n ≠ "") :
    partyRowStep cfg0 pcols0 rows ["", n] = .ok (rows ++ [pDraftN n]) := by
  unfold partyRowStep
  rw [show pcols0 = [colStreet0, colPName0] from rfl]
  rw [foldlM_step _ _ _ _ _ (party_col_street_empty n ⟨true, false, false, [], [], []⟩)]
  rw [foldlM_step _ _ _ _ _ (party_col_name "" n _ hn)]
  simp [List.foldlM, except_bind_ok, except_pure, dictSet, pDraftN]

theorem partyRowStep_child_raw (rows : List PDraft) (a : String) (ha : a ≠ "") :
    partyRowStep cfg0 pcols0 rows [a, ""] =
      appendChild rows [] (fun last =>
        { last with addresses := last.addresses ++ [[("street", some (.str a))]] }) := by
  unfold partyRowStep
  rw [show pcols0 = [colStreet0, colPName0] from rfl]
  rw [foldlM_step _ _ _ _ _ (party_col_street a "" _ ha)]
  rw [foldlM_step _ _ _ _ _ (party_col_name_empty a _)]
  simp [List.foldlM, except_bind_ok, except_pure, dictSet]

theorem partyRowStep_mixed (rows : List PDraft) (a w : String) (ha : a ≠ "")
    (hw : w ≠ "") :
    partyRowStep cfg0 pcols0 rows [a, w] =
      appendChild rows [("name", some (.str w))] (fun last =>
        { last with addresses := last.addresses ++
          [[("street", some (.str a)), ("name", some (.str w))]] }) := by
  unfold partyRowStep
  rw [show pcols0 = [colStreet0, colPName0] from rfl]
  rw [foldlM_step _ _ _ _ _ (party_col_street a w _ ha)]
  rw [foldlM_step _ _ _ _ _ (party_col_name a w _ hw)]
  simp [List.foldlM, except_bind_ok, except_pure, dictSet]

/-! ### Evaluation of the sale column loop on two-cell rows -/

theorem sale_col_line_empty (ps : Option PyValue → Bool) (w : String) (acc : SRowAcc) :
    saleProcessColumn cfg0 ps ["", w] acc colLine0 = .ok acc := rfl

theorem sale_col_line (ps : Option PyValue → Bool) (a w : String) (acc : SRowAcc)
    (ha : a ≠ "") :
    saleProcessColumn cfg0 ps [a, w] acc colLine0 =
      .ok { acc with
            is_line := true, is_sale := false,
            values := dictSet acc.values
              (if ps (some (.str a)) then "product" else "description")
              (some (.str a)) } := by
  have h0 : pySplit "0" ',' = ["0"] := by decide
  have h1 : pyInt "0" = some 0 := by decide
  have h2 : getVals [a, w] ["0"] = .ok [a] := rfl
  have h3 : pyIndex [a, w] (0 : Int) = .ok a := rfl
  have h4 : get_char [a] = a := rfl
  by_cases hps : ps (some (.str a)) = true <;>
    simp [saleProcessColumn, colLine0, h0, h1, h2, h3, h4, get_value, coerce, ha, hps,
      except_bind_ok, except_pure]

theorem sale_col_party_empty (ps : Option PyValue → Bool) (x : String) (acc : SRowAcc) :
    saleProcessColumn cfg0 ps [x, ""] acc colSParty0 = .ok acc := rfl

theorem sale_col_party (ps : Option PyValue → Bool) (x w : String) (acc : SRowAcc)
    (hw : w ≠ "") :
    saleProcessColumn cfg0 ps [x, w] acc colSParty0 =
      .ok { acc with
            values := dictSet acc.values "party" (some (.str w)),
            domain := acc.domain ++ [("party", some (.str w))] } := by
  have h0 : pySplit "1" ',' = ["1"] := by decide
  have h1 : pyInt "1" = some 1 := by decide
  have h2 : getVals [x, w] ["1"] = .ok [w] := rfl
  have h3 : pyIndex [x, w] (1 : Int) = .ok w := rfl
  have h4 : get_char [w] = w := rfl
  simp [saleProcessColumn, colSParty0, h0, h1, h2, h3, h4, get_value, coerce, hw,
    except_bind_ok, except_pure]

theorem saleRowStep_line_raw (ps : Option PyValue → Bool) (rows : List SDraft)
    (a : String) (ha : a ≠ "") :
    saleRowStep cfg0 ps scols0 rows [a, ""] =
      appendLine rows []
        [(if ps (some (.str a)) then "product" else "description", some (.str a))] := by
  unfold saleRowStep
  rw [show scols0 = [colLine0, colSParty0] from rfl]
  rw [foldlM_step _ _ _ _ _ (sale_col_line ps a "" _ ha)]
  rw [foldlM_step _ _ _ _ _ (sale_col_party_empty ps a _)]
  by_cases hps : ps (some (.str a)) = true <;>
    simp [List.foldlM, except_bind_ok, except_pure, dictSet, hps]

/-! ### A constant-only column makes the grouped loops raise -/

theorem partyProcessColumn_constant_only (cfg : NumCfg) (row : List String)
    (acc : PRowAcc) (col : Column) (h : col.column = "") :
    partyProcessColumn cfg row acc col = .error ImpErr.valueError := by
  unfold partyProcessColumn
  rw [h, show pySplit "" ',' = [""] from rfl]
  simp [show pyInt "" = none from rfl, except_bind_error]

theorem saleProcessColumn_constant_only (cfg : NumCfg) (ps : Option PyValue → Bool)
    (row : List String) (acc : SRowAcc) (col : Column) (h : col.column = "") :
    saleProcessColumn cfg ps row acc col = .error ImpErr.valueError := by
  unfold saleProcessColumn
  rw [h, show pySplit "" ',' = [""] from rfl]
  simp [show pyInt "" = none from rfl, except_bind_error]

theorem partyAssemble_constant_only (cfg : NumCfg) (col : Column) (cols : List Column)
    (row : List String) (rows : List (List String)) (h : col.column = "") :
    partyAssemble cfg (col :: cols) (row :: rows) = .error ImpErr.valueError := by
  unfold partyAssemble
  apply foldlM_error
  have hf : (col :: cols).foldlM (partyProcessColumn cfg row)
      ⟨true, false, false, [], [], []⟩ = .error .valueError :=
    foldlM_error _ _ _ _ _ (partyProcessColumn_constant_only cfg row _ col h)
  simp [partyRowStep, hf, except_bind_error]

theorem saleAssemble_constant_only (cfg : NumCfg) (ps : Option PyValue → Bool)
    (col : Column) (cols : List Column) (row : List String) (rows : List (List String))
    (h : col.column = "") :
    saleAssemble cfg ps (col :: cols) (row :: rows) = .error ImpErr.valueError := by
  unfold saleAssemble
  apply foldlM_error
  have hf : (col :: cols).foldlM (saleProcessColumn cfg ps row)
      ⟨true, false, [], []⟩ = .error .valueError :=
    foldlM_error _ _ _ _ _ (saleProcessColumn_constant_only cfg ps row _ col h)
  simp [saleRowStep, hf, except_bind_error]

/-! ### Claim theorems -/

/-- C1 (counterexample): with a non-empty domain, a search match and both
`skip_repeated` and `update_record` set, the default import SKIPS the row
(logging `record_already_exists` and saving nothing) — not UPDATE as the
claim states: `skip_repeated` is tested first. -/
theorem import_default_both_flags_skips :
    import_file_default cfg0 [colName0] (fun _ => some 7) true true true [["alice"]] =
      .ok ⟨"done", [⟨"skipped", "record_already_exists"⟩], []⟩ ∧
    dedupDecision [("name", some (PyValue.str "alice"))] (some 7) true true =
      Decision.skip 7 := by
  decide

/-- C1 (amended): the dedup decision table of `import_file_default`.  An
empty domain always creates; with a match, `skip_repeated` takes
precedence and skips, then `update_record` updates, else the row is
created; without a match the row is created. -/
theorem dedupDecision_policy (domain : List (String × Option PyValue))
    (found : Option Nat) (s u : Bool) (r : Nat) :
    (domain = [] → dedupDecision domain found s u = Decision.create) ∧
    (domain ≠ [] → found = some r → s = true →
      dedupDecision domain found s u = Decision.skip r) ∧
    (domain ≠ [] → found = some r → s = false → u = true →
      dedupDecision domain found s u = Decision.update r) ∧
    (domain ≠ [] → found = some r → s = false → u = false →
      dedupDecision domain found s u = Decision.create) ∧
    (domain ≠ [] → found = none → dedupDecision domain found s u = Decision.create) := by
  rcases domain with _ | ⟨q, d⟩ <;> cases found <;> cases s <;> cases u <;>
    refine ⟨?_, ?_, ?_, ?_, ?_⟩ <;> intros <;> simp_all [dedupDecision]

/-- C1 (witness): the amended decision table applied at a concrete
matched draft with both flags set. -/
theorem dedupDecision_policy_witness :
    dedupDecision [("name", (none : Option PyValue))] (some 3) true true =
      Decision.skip 3 :=
  (dedupDecision_policy [("name", none)] (some 3) true true 3).2.1 (by decide) rfl rfl

/-- C4 (code bug): `get_many2one` returns absent on an empty search
result, but on a non-empty result it raises `NameError`, because the
source returns `record[0]` while only `records` is bound. -/
theorem get_many2one_match_raises_nameerror :
    get_many2one (fun _ => [7]) ["Alice"] = .error ImpErr.nameError ∧
    get_many2one (fun _ => []) ["Alice"] = .ok none := by
  decide

/-- C5 (counterexample): validation accepts a mapping with BOTH `column`
and `constant` set, and rejects one with only `column` set when a token
is not an integer — so validation does not enforce "exactly one". -/
theorem validateColumn_not_exactly_one :
    validateColumn ⟨"0", "x", "name", "", TType.char, false, 2⟩ = true ∧
    validateColumn ⟨"a", "", "name", "", TType.char, false, 2⟩ = false := by
  decide

/-- C5 (amended): a column mapping validates iff either `column` is
non-empty with every comma token parsing as an integer (`constant` free
to be set or not), or `column` is empty and `constant` is set. -/
theorem validateColumn_characterization (col : Column) :
    validateColumn col = true ↔
      ((col.column ≠ "" ∧ ∀ cell ∈ pySplit col.column ',', (pyInt cell).isSome = true) ∨
       (col.column = "" ∧ col.constant ≠ "")) := by
  unfold validateColumn check_sources check_columns
  by_cases hc : col.column = "" <;> by_cases hk : col.constant = "" <;>
    simp [hc, hk, List.all_eq_true]

/-- C6: for a boolean column, `get_value` never raises; every
syntactically present value (cell or constant, including `"0"` and
`"False"`) coerces to `True`, and the result is absent exactly when the
first referenced cell is empty or missing and no constant is set. -/
theorem get_value_boolean_truthiness (cfg : NumCfg) (col : Column)
    (values : List String) (h : col.ttype = TType.boolean) :
    (get_value cfg col values = .ok (some (PyValue.bool true)) ∨
      get_value cfg col values = .ok none) ∧
    (get_value cfg col values = .ok none ↔
      values.headD "" = "" ∧ col.constant = "") := by
  rcases values with _ | ⟨v, rest⟩
  · by_cases hcst : col.constant = ""
    · simp [get_value, hcst]
    · constructor
      · left
        simp [get_value, hcst, coerce, h, get_boolean]
      · simp [get_value, hcst, coerce, h, get_boolean]
  · by_cases hv : v = ""
    · subst hv
      by_cases hcst : col.constant = ""
      · simp [get_value, hcst]
      · constructor
        · left
          simp [get_value, hcst, coerce, h, get_boolean]
        · simp [get_value, hcst, coerce, h, get_boolean]
    · constructor
      · left
        simp [get_value, hv, coerce, h, get_boolean]
      · simp [get_value, hv, coerce, h, get_boolean]

/-- C6 (witness): the boolean column theorem applied to the cell value
`"0"`, which coerces to `True`. -/
theorem get_value_boolean_truthiness_witness :
    (get_value cfg0 ⟨"0", "", "active", "", TType.boolean, false, 2⟩ ["0"] =
        .ok (some (PyValue.bool true)) ∨
      get_value cfg0 ⟨"0", "", "active", "", TType.boolean, false, 2⟩ ["0"] = .ok none) ∧
    (get_value cfg0 ⟨"0", "", "active", "", TType.boolean, false, 2⟩ ["0"] = .ok none ↔
      (["0"] : List String).headD "" = "" ∧
        (⟨"0", "", "active", "", TType.boolean, false, 2⟩ : Column).constant = "") :=
  get_value_boolean_truthiness cfg0 ⟨"0", "", "active", "", TType.boolean, false, 2⟩
    ["0"] rfl

/-- C7 (counterexample): a run with no rows (hence nothing to save) ends
in state `done` with no `import_successfully` summary entry, so the
claim's "otherwise ... with a summary entry" fails for such runs. -/
theorem import_default_empty_run_no_summary :
    import_file_default cfg0 [colName0] (fun _ => none) false false false [] =
      .ok ⟨"done", [], []⟩ := by
  decide

/-- C7 (amended): whenever the row loop completes, the run returns
normally for either save outcome (a persistence failure is caught, not
re-raised); with a non-empty batch a failing save yields state `error`
with an `import_unsuccessfully` summary prepended and a successful save
yields `done` with `import_successfully` prepended; with an empty batch
the state is `done` and no summary entry is added. -/
theorem import_default_finalization (cfg : NumCfg) (cols : List Column)
    (search : List (String × Option PyValue) → Option Nat) (s u : Bool)
    (rows : List (List String)) (acc : List LogEntry × List SavedRec)
    (h : defaultProcessRows cfg cols search s u rows = .ok acc) :
    (∀ saveOk, import_file_default cfg cols search saveOk s u rows =
      .ok (finalizeRun saveOk acc.1 acc.2)) ∧
    (acc.2 ≠ [] → finalizeRun false acc.1 acc.2 =
      ⟨"error", ⟨"error", "import_unsuccessfully"⟩ :: acc.1, acc.2⟩) ∧
    (acc.2 ≠ [] → finalizeRun true acc.1 acc.2 =
      ⟨"done", ⟨"done", "import_successfully"⟩ :: acc.1, acc.2⟩) ∧
    (acc.2 = [] → ∀ saveOk, finalizeRun saveOk acc.1 acc.2 = ⟨"done", acc.1, []⟩) := by
  refine ⟨?_, ?_, ?_, ?_⟩
  · intro saveOk
    unfold import_file_default
    rw [h]
    rfl
  · intro hne
    simp [finalizeRun, hne]
  · intro hne
    simp [finalizeRun, hne]
  · intro he saveOk
    simp [finalizeRun, he]

/-- C7 (witness): a one-row run whose batched save fails ends in state
`error` with the `import_unsuccessfully` summary prepended. -/
theorem import_default_finalization_witness :
    defaultProcessRows cfg0 [colName0] (fun _ => none) false false [["alice"]] =
      .ok ([⟨"done", "record_added"⟩], [⟨none, [("name", some (PyValue.str "alice"))]⟩]) ∧
    import_file_default cfg0 [colName0] (fun _ => none) false false false [["alice"]] =
      .ok ⟨"error", [⟨"error", "import_unsuccessfully"⟩, ⟨"done", "record_added"⟩],
        [⟨none, [("name", some (PyValue.str "alice"))]⟩]⟩ := by
  have h : defaultProcessRows cfg0 [colName0] (fun _ => none) false false [["alice"]] =
      .ok ([⟨"done", "record_added"⟩],
        [⟨none, [("name", some (PyValue.str "alice"))]⟩]) := by decide
  have hth := import_default_finalization cfg0 [colName0] (fun _ => none) false false
    [["alice"]] _ h
  refine ⟨h, ?_⟩
  rw [hth.1 false, hth.2.1 (by decide)]

/-- C8 (counterexample): on a concrete run whose only row is shorter than
the referenced cell index, `import_file_default` raises (returns
`Except.error`) instead of producing a run outcome in a terminal `error`
state with a summary log entry, refuting the claim as stated. -/
theorem import_default_short_row_raises :
    import_file_default cfg0 [⟨"2", "", "qty", "", TType.char, false, 2⟩] (fun _ => none)
      true false false [["a", "b"]] = .error (ImpErr.userError "csv_format_error") := by
  decide

/-- C8 (witness): the amended abort theorem applied to a concrete
one-cell row and a column referencing cell 1. -/
theorem import_default_short_row_witness :
    pyInt "1" = some (Int.ofNat 1) ∧ (["x"] : List String) ≠ [] ∧
    (["x"] : List String).length ≤ 1 ∧
    import_file_default cfg0 [⟨"1", "", "qty", "", TType.char, false, 2⟩] (fun _ => none)
      true false false [["x"]] = .error (ImpErr.userError "csv_format_error") :=
  ⟨by decide, by decide, by decide,
    import_default_short_row cfg0 _ _ true false false "1" 1 ["x"] [] rfl rfl (by decide)
      (by decide) (by decide)⟩

/-- C2 (counterexample): a row that populates BOTH the child-marked
street cell and the non-child name cell does not start a new top-level
draft — the two-row input produces one draft, not two, refuting "every
row that populates at least one non-child field starts a new top-level
draft". -/
theorem party_mixed_row_single_draft :
    (partyAssemble cfg0 pcols0 [["", "Alice"], ["Baker", "Bob"]]).map List.length =
      .ok 1 := by
  decide

/-- C2 (amended): on the party profile with one child-marked column, the
decoded sequence [parent, child, child, parent, child] assembles into
exactly two drafts with 2 and 1 address entries; and a row populating a
child-marked cell appends one child entry to the current draft even when
it also populates a non-child field (whose value joins the child entry
and whose domain item is nested into the parent's domain). -/
theorem party_grouped_assembly (n1 a1 a2 n2 a3 : String) (h1 : n1 ≠ "")
    (h2 : a1 ≠ "") (h3 : a2 ≠ "") (h4 : n2 ≠ "") (h5 : a3 ≠ "") :
    (partyAssemble cfg0 pcols0 [["", n1], [a1, ""], [a2, ""], ["", n2], [a3, ""]] =
      .ok [⟨[("name", some (.str n1))],
            [[("street", some (.str a1))], [("street", some (.str a2))]], [], [],
            some [.item "name" (some (.str n1))]⟩,
           ⟨[("name", some (.str n2))],
            [[("street", some (.str a3))]], [], [],
            some [.item "name" (some (.str n2))]⟩]) ∧
    (partyAssemble cfg0 pcols0 [["", n1], [a1, n2]] =
      .ok [⟨[("name", some (.str n1))],
            [[("street", some (.str a1)), ("name", some (.str n2))]], [], [],
            some [.item "name" (some (.str n1)),
              .group [("name", some (.str n2))]]⟩]) := by
  constructor
  · unfold partyAssemble
    rw [foldlM_step _ _ _ _ _ (partyRowStep_parent [] n1 h1)]
    rw [foldlM_step _ _ _ _ _
      ((partyRowStep_child_raw _ a1 h2).trans (appendChild_concat _ _ _))]
    rw [foldlM_step _ _ _ _ _
      ((partyRowStep_child_raw _ a2 h3).trans (appendChild_concat _ _ _))]
    rw [foldlM_step _ _ _ _ _ (partyRowStep_parent _ n2 h4)]
    rw [foldlM_step _ _ _ _ _
      ((partyRowStep_child_raw _ a3 h5).trans (appendChild_concat _ _ _))]
    simp [List.foldlM, except_pure, pDraftN]
  · unfold partyAssemble
    rw [foldlM_step _ _ _ _ _ (partyRowStep_parent [] n1 h1)]
    rw [foldlM_step _ _ _ _ _
      ((partyRowStep_mixed _ a1 n2 h2 h4).trans
        (appendChild_concat_group [] (pDraftN n1) _ _ _
          [DomEntry.item "name" (some (.str n1))] rfl))]
    simp [List.foldlM, except_pure, pDraftN]

/-- C2 (witness): the grouped assembly theorem at concrete cell texts. -/
theorem party_grouped_assembly_witness :
    partyAssemble cfg0 pcols0 [["", "N1"], ["A1", ""], ["A2", ""], ["", "N2"], ["A3", ""]] =
      .ok [⟨[("name", some (.str "N1"))],
            [[("street", some (.str "A1"))], [("street", some (.str "A2"))]], [], [],
            some [.item "name" (some (.str "N1"))]⟩,
           ⟨[("name", some (.str "N2"))],
            [[("street", some (.str "A3"))]], [], [],
            some [.item "name" (some (.str "N2"))]⟩] :=
  (party_grouped_assembly "N1" "A1" "A2" "N2" "A3" (by decide) (by decide) (by decide)
    (by decide) (by decide)).1

/-- C9: in both grouped methods, when the first data row populates only
child-marked cells, the assembly reads `rows[-1]` of the still-empty
draft list and raises `IndexError`, producing no draft and no log
entry. -/
theorem grouped_child_first_row_index_error (a : String)
    (ps : Option PyValue → Bool) (rest : List (List String)) (ha : a ≠ "") :
    partyAssemble cfg0 pcols0 ([a, ""] :: rest) = .error ImpErr.indexError ∧
    saleAssemble cfg0 ps scols0 ([a, ""] :: rest) = .error ImpErr.indexError := by
  constructor
  · unfold partyAssemble
    apply foldlM_error
    rw [partyRowStep_child_raw [] a ha]
    rfl
  · unfold saleAssemble
    apply foldlM_error
    rw [saleRowStep_line_raw ps [] a ha]
    rfl

/-- C9 (witness): a child-only first row at concrete inputs. -/
theorem grouped_child_first_row_index_error_witness :
    ("Baker" : String) ≠ "" ∧
    (partyAssemble cfg0 pcols0 [["Baker", ""]] = .error ImpErr.indexError ∧
      saleAssemble cfg0 (fun _ => false) scols0 [["Baker", ""]] =
        .error ImpErr.indexError) :=
  ⟨by decide, grouped_child_first_row_index_error "Baker" (fun _ => false) [] (by decide)⟩

/-- C10: a constant-only mapping (empty `column`, non-empty `constant`)
passes save-time validation, but both grouped per-column loops evaluate
`int(cells[0])` — `int('')` — before consulting the constant, so every
data row of a party or sale import with such a column raises
`ValueError`. -/
theorem grouped_constant_only_column_raises (cfg : NumCfg)
    (ps : Option PyValue → Bool) (col : Column) (cols : List Column)
    (row : List String) (rows : List (List String)) (accP : PRowAcc) (accS : SRowAcc)
    (h : col.column = "") (hconst : col.constant ≠ "") :
    validateColumn col = true ∧
    partyProcessColumn cfg row accP col = .error ImpErr.valueError ∧
    saleProcessColumn cfg ps row accS col = .error ImpErr.valueError ∧
    partyAssemble cfg (col :: cols) (row :: rows) = .error ImpErr.valueError ∧
    saleAssemble cfg ps (col :: cols) (row :: rows) = .error ImpErr.valueError :=
  ⟨by simp [validateColumn, check_sources, check_columns, h, hconst],
    partyProcessColumn_constant_only cfg row accP col h,
    saleProcessColumn_constant_only cfg ps row accS col h,
    partyAssemble_constant_only cfg col cols row rows h,
    saleAssemble_constant_only cfg ps col cols row rows h⟩

/-- C10 (witness): a concrete constant-only column validates and makes
both grouped assemblies raise on a one-row file. -/
theorem grouped_constant_only_column_raises_witness :
    ((⟨"", "X", "name", "", TType.char, false, 2⟩ : Column).column = "" ∧
      (⟨"", "X", "name", "", TType.char, false, 2⟩ : Column).constant ≠ "") ∧
    (validateColumn ⟨"", "X", "name", "", TType.char, false, 2⟩ = true ∧
      partyProcessColumn cfg0 ["y"] ⟨true, false, false, [], [], []⟩
        ⟨"", "X", "name", "", TType.char, false, 2⟩ = .error ImpErr.valueError ∧
      saleProcessColumn cfg0 (fun _ => false) ["y"] ⟨true, false, [], []⟩
        ⟨"", "X", "name", "", TType.char, false, 2⟩ = .error ImpErr.valueError ∧
      partyAssemble cfg0 [⟨"", "X", "name", "", TType.char, false, 2⟩] [["y"]] =
        .error ImpErr.valueError ∧
      saleAssemble cfg0 (fun _ => false) [⟨"", "X", "name", "", TType.char, false, 2⟩]
        [["y"]] = .error ImpErr.valueError) :=
  ⟨⟨rfl, by decide⟩,
    grouped_constant_only_column_raises cfg0 (fun _ => false) _ [] ["y"] []
      ⟨true, false, false, [], [], []⟩ ⟨true, false, [], []⟩ rfl (by decide)⟩

/-- C3 (counterexample): with thousands separator `"."` and decimal
separator `","` (distinct tokens), `get_numeric` is not idempotent on the
canonical string: `"1,5"` parses to 1.50, whose rendering `"1.50"`
re-parses to 150.00 because the canonical dot is stripped as a thousands
separator. -/
theorem get_numeric_not_idempotent_dot_thousands :
    (NumCfg.mk "." ",").thousands_separator ≠ (NumCfg.mk "." ",").decimal_separator ∧
    get_numeric ⟨".", ","⟩ 2 ["1,5"] = .ok (some ⟨150, 2⟩) ∧
    get_numeric ⟨".", ","⟩ 2 [renderDec ⟨150, 2⟩] = .ok (some ⟨15000, 2⟩) ∧
    (⟨15000, 2⟩ : Dec) ≠ (⟨150, 2⟩ : Dec) := by
  decide

/-- C3 (amended): for every configured thousands separator other than the
dot (`"none"`, `","` or `"others"`), a successful `get_numeric` parse is
idempotent after normalization: re-running it on the rendered canonical
decimal string returns exactly the same quantized decimal. -/
theorem get_numeric_idempotent_after_normalization (cfg : NumCfg) (digits : Nat)
    (v : String) (x : Dec)
    (hsel : cfg.thousands_separator = "none" ∨ cfg.thousands_separator = "," ∨
      cfg.thousands_separator = "others")
    (h : get_numeric cfg digits [v] = .ok (some x)) :
    get_numeric cfg digits [renderDec x] = .ok (some x) :=
  get_numeric_renderDec cfg digits x hsel (get_numeric_scale cfg digits [v] x h)

/-- C3 (witness): idempotence at thousands `","`, decimal `"."` on the
cell `"1,234.5"`, which parses and re-parses to 1234.50. -/
theorem get_numeric_idempotent_after_normalization_witness :
    ((NumCfg.mk "," ".").thousands_separator = "none" ∨
      (NumCfg.mk "," ".").thousands_separator = "," ∨
      (NumCfg.mk "," ".").thousands_separator = "others") ∧
    get_numeric ⟨",", "."⟩ 2 ["1,234.5"] = .ok (some ⟨123450, 2⟩) ∧
    get_numeric ⟨",", "."⟩ 2 [renderDec ⟨123450, 2⟩] = .ok (some ⟨123450, 2⟩) :=
  ⟨Or.inr (Or.inl rfl), by decide,
    get_numeric_idempotent_after_normalization ⟨",", "."⟩ 2 "1,234.5" ⟨123450, 2⟩
      (Or.inr (Or.inl rfl)) (by decide)⟩

end ImportCSV
